import Mathlib

/-!
Verification of the ImageGallery photo-archive manager.

This file gives a shallow embedding of the parts of the Python sources that
the specification's claims talk about, and proves (or refutes) each claim
against that embedding:

* `library_scanner.py` / `update_all.py` — path parsing, shutter-speed
  formatting, the change-detection index and `needs_update`, and the
  database upsert loop of `process_all`;
* `fix_spaced_filenames.py` / `cleanup_hash_migration.py` — the
  filename-sanitization reconciliation passes;
* `update_exif_only.py` — the EXIF-only update pass;
* `api_server.py` — the auth guard and the tags/description endpoints.

Strings are Lean `String`s; Python numbers appearing in EXIF formatting are
modelled as exact rationals; file mtimes/sizes as naturals; the database is
an explicit record of the `images`, `tags` and `image_tags` tables
(`database_schema.sql` is not part of the sources, so the table shapes are
modelled from the spec's data model, §3/§6).
-/

namespace ImageGallery

/-! ## Python string primitives -/

/-- The ASCII whitespace characters recognised by Python's `str.strip()`. -/
def isPyWhitespace (c : Char) : Bool :=
  c = ' ' || c = '\t' || c = '\n' || c = '\x0d' || c = '\x0b' || c = '\x0c'

/-- Python `str.strip()`: drop whitespace from both ends. -/
def pyStrip (s : String) : String :=
  ⟨((s.data.dropWhile isPyWhitespace).reverse.dropWhile isPyWhitespace).reverse⟩

/-- Python `str.lower()` (ASCII range, which is all the repository stores). -/
def pyLower (s : String) : String :=
  ⟨s.data.map Char.toLower⟩

/-- Python `str.replace(old, new)` for a single-character pattern and a
single-character replacement, as used by `sanitize_filename`,
`fix_spaced_filenames` and `cleanup_hash_migration`. -/
def pyReplaceChar (s : String) (old new : Char) : String :=
  ⟨s.data.map (fun c => if c = old then new else c)⟩

/-- Python `str.split(sep)` on character lists: scan left to right, cut at
each non-overlapping occurrence of the (nonempty) separator. The fuel
argument (instantiated with the list's length) only makes the recursion
structural; it is never exhausted. -/
def pySplitAux (sep : List Char) : ℕ → List Char → List (List Char)
  | _, [] => [[]]
  | 0, l => [l]
  | fuel + 1, c :: rest =>
    if sep.isPrefixOf (c :: rest) then
      [] :: pySplitAux sep fuel ((c :: rest).drop sep.length)
    else
      match pySplitAux sep fuel rest with
      | [] => [[c]]
      | h :: t => (c :: h) :: t

/-- Python `str.split(sep)` for a nonempty separator. -/
def pySplit (s sep : String) : List String :=
  (pySplitAux sep.data s.data.length s.data).map fun l => String.mk l

/-- Splitting a relative path into its segments (`relative_path.split(os.sep)`
with `os.sep = '/'`). -/
def splitPath (s : String) : List String :=
  pySplit s "/"

/-! ## Path Parser (`library_scanner.parse_path`, `update_all.parse_path`) -/

/-- `ROOT_FILM_TYPES = ['rollfilm', 'sheetfilm']` (library_scanner.py). -/
def ROOT_FILM_TYPES : List String := ["rollfilm", "sheetfilm"]

/-- The structured result both `parse_path` functions return on success. -/
structure ParsedPath where
  image_id : String
  film_type : String
  batch_info : String
  filename_base : String
  film_stock : String
  resolution : String
  deriving Repr, DecidableEq

def isAsciiAlpha (c : Char) : Bool :=
  ('a' ≤ c && c ≤ 'z') || ('A' ≤ c && c ≤ 'Z')

def isAsciiDigit (c : Char) : Bool :=
  '0' ≤ c && c ≤ '9'

/-- Whether a character list matches the regex fragment `[a-zA-Z]+[0-9]+$`:
a nonempty run of letters followed by a nonempty run of digits reaching the
end. Since letters and digits are disjoint, the letter block is exactly the
maximal alphabetic prefix. -/
def matchAlphaDigitEnd (l : List Char) : Bool :=
  let alphas := l.takeWhile isAsciiAlpha
  let rest := l.drop alphas.length
  !alphas.isEmpty && !rest.isEmpty && rest.all isAsciiDigit

/-- `re.search(r'(_)?([a-zA-Z]+[0-9]+)$', s)`: scan for the leftmost start
position; at each position the optional `(_)?` is tried first (so an
underscore there is consumed and excluded from group 2); the returned value
is group 2, which necessarily extends to the end of the string. -/
def filmStockSearch : List Char → Option (List Char)
  | [] => none
  | c :: rest =>
    if c = '_' && matchAlphaDigitEnd rest then some rest
    else if matchAlphaDigitEnd (c :: rest) then some (c :: rest)
    else filmStockSearch rest

/-- `library_scanner.parse_path` (lines 143–184), taking the path already
relative to the base directory. Returns `none` ("unparseable") when the
relative path has fewer than 5 segments or its first segment is not a
recognised film type. -/
def parse_path_scanner (relative_path : String) : Option ParsedPath :=
  let parts := splitPath relative_path
  if parts.length < 5 ∨ parts.getD 0 "" ∉ ROOT_FILM_TYPES then
    none
  else
    let film_type := parts.getD 0 ""
    let batch_info := parts.getD 1 ""
    let filename_base := parts.getD 2 ""
    let resolution := parts.getD 3 ""
    let film_stock := match filmStockSearch filename_base.data with
      | some g => String.mk g
      | none => "Unknown"
    some {
      image_id := film_type ++ "/" ++ batch_info ++ "/" ++ filename_base
      film_type := film_type
      batch_info := batch_info
      filename_base := filename_base
      film_stock := film_stock
      resolution := resolution
    }

/-- `update_all.parse_path` (lines 326–351), taking the path already relative
to the base directory. Note: it only requires 4 segments and performs no
film-type check; film stock comes from `batch_info.split('_med_')[-1]`. -/
def parse_path_update_all (relative_path : String) : Option ParsedPath :=
  let parts := splitPath relative_path
  if parts.length < 4 then
    none
  else
    let film_type := parts.getD 0 ""
    let batch_info := parts.getD 1 ""
    let filename_base := parts.getD 2 ""
    let resolution := parts.getD 3 ""
    let pieces := pySplit batch_info "_med_"
    let film_stock := if 1 < pieces.length then pieces.getLastD "Unknown" else "Unknown"
    some {
      image_id := film_type ++ "/" ++ batch_info ++ "/" ++ filename_base
      film_type := film_type
      batch_info := batch_info
      filename_base := filename_base
      film_stock := film_stock
      resolution := resolution
    }

/-! ## Shutter-speed formatting (`format_shutter_speed`, identical in
`library_scanner.py` lines 83–99 and `update_all.py` lines 270–284) -/

/-- Python `int()` on a rational: truncation toward zero. -/
def pyInt (q : ℚ) : ℤ :=
  if 0 ≤ q then ⌊q⌋ else -⌊-q⌋

/-- How a Python float renders inside an f-string. Exact for integral values
(Python prints `2.0`); non-integral values are displayed here as exact
rationals, which no claim exercises. -/
def pyFloatRepr (q : ℚ) : String :=
  if q.den = 1 then toString q.num ++ ".0" else toString q

/-- `format_shutter_speed(exposure_time)` for a numeric argument, with the
arithmetic done exactly. `if not exposure_time` makes `0` (and only `0`,
among numbers) return the empty string. -/
def format_shutter_speed (exposure_time : ℚ) : String :=
  if exposure_time = 0 then ""
  else if exposure_time < 1 then
    "1/" ++ toString (pyInt (1 / exposure_time))
  else
    pyFloatRepr exposure_time ++ "s"

/-! ## Database model

`database_schema.sql` is not among the sources, so the table shapes are
modelled from the spec (§3, §6): an `images` table with a serial primary
key `id` and natural key `image_id`, a `tags` table of unique names, and a
plain `image_tags` join table `(image_id → tag_id)` holding foreign keys.
The spec mentions no cascading deletes, and the repository's own cleanup
code deletes `image_tags` rows before `images` rows "(foreign key)", so a
`DELETE FROM images` is modelled as removing only the images row. -/

/-- One row of the `images` table (columns per spec §3). -/
structure ImageRow where
  id : ℕ
  image_id : String
  film_type : String
  batch_info : String
  filename_base : String
  film_stock : String
  thumbnail_path : Option String
  highres_path : Option String
  description : String
  camera_make : String
  camera_model : String
  lens_model : String
  focal_length : String
  aperture : String
  shutter_speed : String
  iso : String
  date_taken : Option String
  exif_data : Option String
  needs_reload : Bool
  deriving Repr, DecidableEq

/-- One row of the `tags` table. -/
structure TagRow where
  id : ℕ
  name : String
  deriving Repr, DecidableEq

/-- The database state: the three tables plus the next serial ids. An
`image_tags` element is a pair (images.id, tags.id). -/
structure Db where
  images : List ImageRow
  tags : List TagRow
  image_tags : List (ℕ × ℕ)
  nextImageId : ℕ
  nextTagId : ℕ
  deriving Repr, DecidableEq

/-- `SELECT ... FROM images WHERE image_id = %s` (first match). -/
def findImageByImageId (db : Db) (iid : String) : Option ImageRow :=
  db.images.find? (fun r => r.image_id == iid)

/-- The tag names linked to the image with primary key `pk`, resolving each
`image_tags` pair through the `tags` table. -/
def linkedTagNames (db : Db) (pk : ℕ) : List String :=
  db.image_tags.filterMap fun p =>
    if p.1 = pk then (db.tags.find? (fun t => t.id == p.2)).map TagRow.name else none

/-- Well-formedness of the tag side of the database: distinct tag ids, all
below the next serial value, and link targets below it as well. -/
def Db.WFtags (db : Db) : Prop :=
  (db.tags.map TagRow.id).Nodup ∧
  (∀ t ∈ db.tags, t.id < db.nextTagId) ∧
  (∀ p ∈ db.image_tags, p.2 < db.nextTagId)

instance (db : Db) : Decidable db.WFtags := by
  unfold Db.WFtags
  infer_instance

/-- A blank images row, used to build concrete database states. -/
def blankRow (pk : ℕ) (iid : String) : ImageRow :=
  ⟨pk, iid, "", "", "", "", none, none, "", "", "", "", "", "", "", "", none, none, false⟩

/-! ## Sanitization reconciliation (`fix_spaced_filenames.py`,
`cleanup_hash_migration.py`) -/

/-- `x.replace(old, new) if x else None`: Python treats both SQL NULL and
the empty string as falsy. -/
def pyOptReplace (x : Option String) (old new : Char) : Option String :=
  match x with
  | none => none
  | some s => if s = "" then none else some (pyReplaceChar s old new)

/-- One iteration of the per-record loop of `fix_spaced_filenames`
(lines 54–93). The arguments are the record's fields as fetched by the
initial SELECT. Spaces are replaced by underscores; if a record whose
`image_id` equals the sanitized one already exists, the fetched record's
tag links and images row are deleted; otherwise the row is updated in
place. Each iteration is one transaction (`with conn:`). -/
def fix_spaced_step (db : Db) (pk : ℕ) (image_id : String)
    (thumb highres : Option String) : Db :=
  let new_image_id := pyReplaceChar image_id ' ' '_'
  let new_thumb := pyOptReplace thumb ' ' '_'
  let new_highres := pyOptReplace highres ' ' '_'
  match findImageByImageId db new_image_id with
  | some _ =>
    { db with
      image_tags := db.image_tags.filter (fun p => ¬ p.1 = pk)
      images := db.images.filter (fun r => ¬ r.id = pk) }
  | none =>
    { db with images := db.images.map fun r =>
        if r.id = pk then
          { r with
            image_id := new_image_id
            thumbnail_path := new_thumb
            highres_path := new_highres }
        else r }

/-- One iteration of the per-record loop of
`cleanup_hash_migration.update_database_paths` (lines 61–103). `#` is
replaced by `n`; in the duplicate case only `DELETE FROM images WHERE id =
%s` is issued — unlike `fix_spaced_filenames`, no `image_tags` rows are
deleted. Each iteration is one transaction. -/
def update_database_paths_step (db : Db) (pk : ℕ) (image_id : String)
    (thumb highres : Option String) : Db :=
  let new_image_id := pyReplaceChar image_id '#' 'n'
  let new_thumb := pyOptReplace thumb '#' 'n'
  let new_highres := pyOptReplace highres '#' 'n'
  match findImageByImageId db new_image_id with
  | some _ =>
    { db with images := db.images.filter (fun r => ¬ r.id = pk) }
  | none =>
    { db with images := db.images.map fun r =>
        if r.id = pk then
          { r with
            image_id := new_image_id
            thumbnail_path := new_thumb
            highres_path := new_highres }
        else r }

/-! ## Reconciler / upserter (`update_all.process_all` step 3,
`update_exif_only.update_exif_data`) -/

def PATH_SCANNER : String := "/mnt/omv/Photo/Picture_library"

def PATH_DATABASE : String := "/opt/media"

/-- Python `s.startswith(pre)`. -/
def pyStartswith (s pre : String) : Bool :=
  pre.data.isPrefixOf s.data

/-- `translate_path_for_db` (update_all.py lines 79–83):
`scanner_path.replace(PATH_SCANNER, PATH_DATABASE, 1)` under a
`startswith` guard, i.e. prefix substitution. -/
def translate_path_for_db (scanner_path : String) : String :=
  if pyStartswith scanner_path PATH_SCANNER then
    PATH_DATABASE ++ String.mk (scanner_path.data.drop PATH_SCANNER.data.length)
  else scanner_path

/-- The EXIF fields one run attaches to a record (`update_all.process_all`
update branch; `update_exif_only`). `exif_json` is the serialized
`exif_data` blob, `none` when extraction produced nothing. -/
structure ExifUpdate where
  camera_make : String
  camera_model : String
  lens_model : String
  focal_length : String
  aperture : String
  shutter_speed : String
  iso : String
  date_taken : Option String
  exif_json : Option String
  deriving Repr, DecidableEq

/-- One scanned record as assembled by `process_all` before the database
step. -/
structure ScannedImage where
  image_id : String
  film_type : String
  batch_info : String
  filename_base : String
  film_stock : String
  thumbnail_path : String
  highres_path : String
  description : String
  exif : ExifUpdate
  deriving Repr, DecidableEq

/-- The `UPDATE images SET ...` of `process_all` (lines 706–737): paths and
EXIF columns only. -/
def process_all_update_row (r : ImageRow) (e : ExifUpdate)
    (thumbnail_db highres_db : String) : ImageRow :=
  { r with
    camera_make := e.camera_make
    camera_model := e.camera_model
    lens_model := e.lens_model
    focal_length := e.focal_length
    aperture := e.aperture
    shutter_speed := e.shutter_speed
    iso := e.iso
    date_taken := e.date_taken
    exif_data := e.exif_json
    thumbnail_path := some thumbnail_db
    highres_path := some highres_db }

/-- One iteration of the database loop of `process_all` (lines 692–781):
translate the scanned paths, then update the existing record (paths + EXIF
only) or insert a new one. Each iteration is one transaction. -/
def process_all_upsert (db : Db) (img : ScannedImage) : Db :=
  let thumbnail_db := translate_path_for_db img.thumbnail_path
  let highres_db := translate_path_for_db img.highres_path
  match findImageByImageId db img.image_id with
  | some _ =>
    { db with images := db.images.map fun r =>
        if r.image_id = img.image_id then
          process_all_update_row r img.exif thumbnail_db highres_db
        else r }
  | none =>
    { db with
      images := db.images ++ [{
        id := db.nextImageId
        image_id := img.image_id
        film_type := img.film_type
        batch_info := img.batch_info
        filename_base := img.filename_base
        film_stock := img.film_stock
        thumbnail_path := some thumbnail_db
        highres_path := some highres_db
        description := img.description
        camera_make := img.exif.camera_make
        camera_model := img.exif.camera_model
        lens_model := img.exif.lens_model
        focal_length := img.exif.focal_length
        aperture := img.exif.aperture
        shutter_speed := img.exif.shutter_speed
        iso := img.exif.iso
        date_taken := img.exif.date_taken
        exif_data := img.exif.exif_json
        needs_reload := false }]
      nextImageId := db.nextImageId + 1 }

/-- The `UPDATE images SET ...` of `update_exif_only.update_exif_data`
(lines 58–86): EXIF columns only, not even the paths. -/
def update_exif_row (r : ImageRow) (e : ExifUpdate) : ImageRow :=
  { r with
    camera_make := e.camera_make
    camera_model := e.camera_model
    lens_model := e.lens_model
    focal_length := e.focal_length
    aperture := e.aperture
    shutter_speed := e.shutter_speed
    iso := e.iso
    date_taken := e.date_taken
    exif_data := e.exif_json }

/-- One iteration of `update_exif_only.update_exif_data` (lines 48–99):
update the EXIF columns when the record exists, skip otherwise. -/
def update_exif_data_step (db : Db) (image_id : String) (e : ExifUpdate) : Db :=
  match findImageByImageId db image_id with
  | some _ =>
    { db with images := db.images.map fun r =>
        if r.image_id = image_id then update_exif_row r e else r }
  | none => db

/-! ## Change-detection index (`update_all.py` lines 85–132) -/

/-- A file's metadata as seen by `os.stat`. -/
structure FileInfo where
  mtime : ℕ
  size : ℕ
  deriving Repr, DecidableEq

/-- The filesystem as a partial map from path to stat data. -/
def Fs : Type := String → Option FileInfo

/-- `get_file_signature` (lines 85–91): `"{mtime}:{size}"`, or `"0:0"` when
`os.stat` raises. -/
def get_file_signature (fs : Fs) (p : String) : String :=
  match fs p with
  | some i => toString i.mtime ++ ":" ++ toString i.size
  | none => "0:0"

/-- `os.path.getmtime`; it raises on a missing file — the callers below
only apply it to files that exist, which the theorems assume. -/
def getmtime (fs : Fs) (p : String) : ℕ :=
  match fs p with
  | some i => i.mtime
  | none => 0

/-- The in-memory processing index: `{source|target : signature}`. -/
abbrev IndexMap : Type := List (String × String)

/-- Dictionary lookup `index[key]` (keys are unique). -/
def indexLookup (idx : IndexMap) (key : String) : Option String :=
  (List.find? (fun p => p.1 == key) idx).map Prod.snd

/-- `save_index_entry` (lines 105–108): `index[f"{source}|{target}"] =
signature`, overwriting any present entry. -/
def save_index_entry (idx : IndexMap) (source target signature : String) : IndexMap :=
  let key := source ++ "|" ++ target
  if (List.find? (fun p => p.1 == key) idx).isSome then
    List.map (fun p => if p.1 == key then (key, signature) else p) idx
  else
    idx ++ [(key, signature)]

/-- `needs_update` (lines 116–132): missing target → process; matching
index entry → skip; otherwise compare mtimes and process only when the
source is strictly newer than the target. -/
def needs_update (fs : Fs) (source_file target_file : String) (idx : IndexMap) : Bool :=
  if fs target_file = none then
    true
  else
    let key := source_file ++ "|" ++ target_file
    let source_sig := get_file_signature fs source_file
    if indexLookup idx key = some source_sig then
      false
    else if getmtime fs target_file < getmtime fs source_file then
      true
    else
      false

/-! ## Index persistence (`update_all.write_index`, lines 110–114) -/

/-- The filesystem effects the claims about index persistence talk about. -/
inductive FsOp where
  | write (path : String) (content : String)
  | rename (src dst : String)
  deriving Repr, DecidableEq

def INDEX_FILE : String := "/mnt/omv/Photo/Picture_library/.processing_index"

/-- One line of the index file: `f"{key}|{sig}\n"`. -/
def formatIndexLine (p : String × String) : String :=
  p.1 ++ "|" ++ p.2 ++ "\n"

/-- `write_index` (lines 110–114): `open(INDEX_FILE, 'w')` and write every
entry — a single direct write to the index path. -/
def write_index (idx : IndexMap) : List FsOp :=
  [FsOp.write INDEX_FILE (String.join (idx.map formatIndexLine))]

/-- Modelled from the spec: "write to a temp file and rename over the
original" (§4.4) — the shape an atomic rewrite of `path` takes. -/
def IsAtomicRewrite (ops : List FsOp) (path : String) : Prop :=
  ∃ tmp content, tmp ≠ path ∧ ops = [FsOp.write tmp content, FsOp.rename tmp path]

/-! ## API facade (`api_server.py`) -/

/-- The data stored for an active token:
`{'username': ..., 'expires': ...}`. -/
structure TokenData where
  username : String
  expires : ℕ
  deriving Repr, DecidableEq

/-- `require_auth` (lines 109–132) applied to one request, given the
`Authorization` header, the `active_tokens` map and the current time.
Returns the early response status (`some 401`) or `none` when the guard
passes, the resulting token map, and whether the wrapped handler body
runs. -/
def require_auth (authHeader : Option String) (tokens : List (String × TokenData))
    (now : ℕ) : Option ℕ × List (String × TokenData) × Bool :=
  match authHeader with
  | none => (some 401, tokens, false)
  | some h =>
    if pyStartswith h "Bearer " then
      let token := (pySplit h " ").getD 1 ""
      match List.find? (fun p => p.1 == token) tokens with
      | none => (some 401, tokens, false)
      | some (_, d) =>
        if d.expires < now then
          (some 401, List.filter (fun p => ¬ p.1 = token) tokens, false)
        else
          (none, tokens, true)
    else
      (some 401, tokens, false)

/-- A JSON value in the `tags` array of a request payload: a string, or
anything else (which has no `.strip()` method). -/
inductive PyVal where
  | str (s : String)
  | other
  deriving Repr, DecidableEq

/-- The `tags` field of the request payload: missing (`data.get('tags',
[])` yields `[]`), present but not a list, or a list of values. -/
inductive TagsField where
  | absent
  | notList
  | list (l : List PyVal)
  deriving Repr, DecidableEq

/-- `[tag.strip().lower() for tag in new_tags if tag.strip()]`
(api_server.py line 274). A non-string element raises (`AttributeError`
on `.strip`), modelled as `Except.error`. -/
def cleanTags : List PyVal → Except Unit (List String)
  | [] => .ok []
  | .other :: _ => .error ()
  | .str s :: rest =>
    match cleanTags rest with
    | .error e => .error e
    | .ok r => .ok (if pyStrip s = "" then r else pyLower (pyStrip s) :: r)

/-- The tag upsert (api_server.py lines 293–301):
`INSERT INTO tags (name) VALUES (%s) ON CONFLICT (name) DO UPDATE SET name
= EXCLUDED.name RETURNING id`. -/
def upsertTag (db : Db) (name : String) : Db × ℕ :=
  match List.find? (fun t => t.name == name) db.tags with
  | some t => (db, t.id)
  | none =>
    ({ db with
       tags := db.tags ++ [⟨db.nextTagId, name⟩]
       nextTagId := db.nextTagId + 1 }, db.nextTagId)

/-- The relink loop (api_server.py lines 291–305): upsert each tag name and
insert an `image_tags` pair. -/
def linkTags : Db → ℕ → List String → Db
  | db, _, [] => db
  | db, pk, name :: rest =>
    let r := upsertTag db name
    linkTags { r.1 with image_tags := r.1.image_tags ++ [(pk, r.2)] } pk rest

/-- `update_tags` (api_server.py lines 251–315). Returns (HTTP status,
resulting database, whether the `with conn:` transaction was entered).
The tag-cleaning comprehension runs before the transaction; 404 is decided
inside it; the delete + relink all happen in the same transaction. -/
def update_tags (db : Db) (image_id : String) (tags : TagsField) :
    ℕ × Db × Bool :=
  let new_tags : Option (List PyVal) :=
    match tags with
    | .absent => some []
    | .notList => none
    | .list l => some l
  match new_tags with
  | none => (400, db, false)
  | some l =>
    match cleanTags l with
    | .error _ => (500, db, false)
    | .ok cleaned =>
      match findImageByImageId db image_id with
      | none => (404, db, true)
      | some row =>
        let db1 := { db with
          image_tags := db.image_tags.filter (fun p => ¬ p.1 = row.id) }
        (200, linkTags db1 row.id cleaned.dedup, true)

/-- `update_description` (api_server.py lines 376–415):
`data.get('description', '').strip()`, 404 when the image is unknown,
otherwise store the stripped value. -/
def update_description (db : Db) (image_id : String)
    (descField : Option String) : ℕ × Db :=
  let new_description := pyStrip (descField.getD "")
  match findImageByImageId db image_id with
  | none => (404, db)
  | some _ =>
    (200, { db with images := db.images.map fun r =>
      if r.image_id = image_id then { r with description := new_description }
      else r })

/-! ## Theorems -/

/-- Elements 0–2 of two lists agree when their three-element prefixes agree. -/
theorem getD_eq_of_take3_eq {l₁ l₂ : List String} (h : l₁.take 3 = l₂.take 3)
    {i : ℕ} (hi : i < 3) (d : String) : l₁.getD i d = l₂.getD i d := by
  have h' : l₁[i]? = l₂[i]? := by
    have := congrArg (fun l => l[i]?) h
    simpa [List.getElem?_take, hi] using this
  simp [List.getD_eq_getElem?_getD, h']

theorem parse_path_scanner_none_iff (rel : String) :
    parse_path_scanner rel = none ↔
      ((splitPath rel).length < 5 ∨ (splitPath rel).getD 0 "" ∉ ROOT_FILM_TYPES) := by
  simp only [parse_path_scanner]
  split <;> simp_all

theorem parse_path_scanner_image_id (rel : String) (p : ParsedPath)
    (h : parse_path_scanner rel = some p) :
    p.image_id = (splitPath rel).getD 0 "" ++ "/" ++ (splitPath rel).getD 1 "" ++ "/" ++
      (splitPath rel).getD 2 "" := by
  simp only [parse_path_scanner] at h
  split at h
  · exact absurd h (by simp)
  · cases h; rfl

theorem parse_path_update_all_none_iff (rel : String) :
    parse_path_update_all rel = none ↔ (splitPath rel).length < 4 := by
  simp only [parse_path_update_all]
  split <;> simp_all

theorem parse_path_update_all_image_id (rel : String) (p : ParsedPath)
    (h : parse_path_update_all rel = some p) :
    p.image_id = (splitPath rel).getD 0 "" ++ "/" ++ (splitPath rel).getD 1 "" ++ "/" ++
      (splitPath rel).getD 2 "" := by
  simp only [parse_path_update_all] at h
  split at h
  · exact absurd h (by simp)
  · cases h; rfl

/-- C1 (counterexample). The claim states that the Path Parser returns
`None` for every path with fewer than 5 segments relative to the library
root. `update_all.parse_path` — one of the two implementations the claim is
about — accepts the 4-segment path `rollfilm/b1/img1/600` and returns a
parse for it instead of `None`; it also performs no film-type check (shown
on `foo/b1/img1/600/img1.jpg`, whose first segment is not a recognised film
type). -/
theorem C1_counterexample :
    (splitPath "rollfilm/b1/img1/600").length < 5 ∧
    parse_path_update_all "rollfilm/b1/img1/600" ≠ none ∧
    "foo" ∉ ROOT_FILM_TYPES ∧
    parse_path_update_all "foo/b1/img1/600/img1.jpg" ≠ none := by
  refine ⟨by decide, ?_, by decide, ?_⟩ <;> decide

/-- C1 (amended). `library_scanner.parse_path` returns `None` exactly when
the path relative to the library root has fewer than 5 segments or its
first segment is not a recognised film type, while `update_all.parse_path`
returns `None` exactly when there are fewer than 4 segments (it never
checks the film type). Both produce
`image_id = "{film_type}/{batch_info}/{filename_base}"` from the first
three segments, so for either parser two paths that differ only in the
resolution segment (e.g. 600 vs 2560) yield the same `image_id`. -/
theorem C1_amended :
    (∀ rel : String, parse_path_scanner rel = none ↔
      ((splitPath rel).length < 5 ∨ (splitPath rel).getD 0 "" ∉ ROOT_FILM_TYPES)) ∧
    (∀ (rel : String) (p : ParsedPath), parse_path_scanner rel = some p →
      p.image_id = (splitPath rel).getD 0 "" ++ "/" ++ (splitPath rel).getD 1 "" ++ "/" ++
        (splitPath rel).getD 2 "") ∧
    (∀ rel : String, parse_path_update_all rel = none ↔ (splitPath rel).length < 4) ∧
    (∀ (rel : String) (p : ParsedPath), parse_path_update_all rel = some p →
      p.image_id = (splitPath rel).getD 0 "" ++ "/" ++ (splitPath rel).getD 1 "" ++ "/" ++
        (splitPath rel).getD 2 "") ∧
    (∀ (rel₁ rel₂ : String) (p₁ p₂ : ParsedPath),
      parse_path_scanner rel₁ = some p₁ → parse_path_scanner rel₂ = some p₂ →
      (splitPath rel₁).take 3 = (splitPath rel₂).take 3 →
      p₁.image_id = p₂.image_id) ∧
    (∀ (rel₁ rel₂ : String) (p₁ p₂ : ParsedPath),
      parse_path_update_all rel₁ = some p₁ → parse_path_update_all rel₂ = some p₂ →
      (splitPath rel₁).take 3 = (splitPath rel₂).take 3 →
      p₁.image_id = p₂.image_id) := by
  refine ⟨parse_path_scanner_none_iff, parse_path_scanner_image_id,
    parse_path_update_all_none_iff, parse_path_update_all_image_id, ?_, ?_⟩
  · intro rel₁ rel₂ p₁ p₂ h₁ h₂ ht
    rw [parse_path_scanner_image_id rel₁ p₁ h₁, parse_path_scanner_image_id rel₂ p₂ h₂,
      getD_eq_of_take3_eq ht (by norm_num) "", getD_eq_of_take3_eq ht (by norm_num) "",
      getD_eq_of_take3_eq ht (by norm_num) ""]
  · intro rel₁ rel₂ p₁ p₂ h₁ h₂ ht
    rw [parse_path_update_all_image_id rel₁ p₁ h₁, parse_path_update_all_image_id rel₂ p₂ h₂,
      getD_eq_of_take3_eq ht (by norm_num) "", getD_eq_of_take3_eq ht (by norm_num) "",
      getD_eq_of_take3_eq ht (by norm_num) ""]

/-- C1 witness: the amended theorem applied to the spec's own example — the
600px and 2560px variants of `rollfilm/b1/img1` parse successfully and get
the same `image_id`. -/
theorem C1_amended_witness :
    parse_path_scanner "rollfilm/b1/img1/600/img1.jpg" =
      some ⟨"rollfilm/b1/img1", "rollfilm", "b1", "img1", "img1", "600"⟩ ∧
    parse_path_scanner "rollfilm/b1/img1/2560/img1.jpg" =
      some ⟨"rollfilm/b1/img1", "rollfilm", "b1", "img1", "img1", "2560"⟩ ∧
    (⟨"rollfilm/b1/img1", "rollfilm", "b1", "img1", "img1", "600"⟩ : ParsedPath).image_id =
      (⟨"rollfilm/b1/img1", "rollfilm", "b1", "img1", "img1", "2560"⟩ : ParsedPath).image_id := by
  refine ⟨by decide, by decide, ?_⟩
  exact C1_amended.2.2.2.2.1 "rollfilm/b1/img1/600/img1.jpg" "rollfilm/b1/img1/2560/img1.jpg"
    _ _ (by decide) (by decide) (by decide)

/-- C8 (counterexample). The claim says a sub-second exposure is shown as
`1/{rounded reciprocal}`; the code computes `int(1/exposure_time)`, which
truncates. At `t = 0.15` the reciprocal is `6.66…`: rounding gives 7, but
the code prints `1/6`. -/
theorem C8_counterexample :
    format_shutter_speed (3/20) = "1/6" ∧
    "1/" ++ toString (round ((1 : ℚ) / (3/20))) = "1/7" ∧
    format_shutter_speed (3/20) ≠ "1/" ++ toString (round ((1 : ℚ) / (3/20))) := by
  have hrecip : (1 : ℚ) / (3/20) = 20/3 := by norm_num
  have hfloor : ⌊(20/3 : ℚ)⌋ = 6 := by rw [Int.floor_eq_iff]; norm_num
  have hround : round ((1 : ℚ) / (3/20)) = 7 := by
    rw [hrecip, round_eq]
    have : (20/3 : ℚ) + 1/2 = 43/6 := by norm_num
    rw [this, Int.floor_eq_iff]; norm_num
  have hcode : format_shutter_speed (3/20) = "1/6" := by
    rw [format_shutter_speed, if_neg (by norm_num), if_pos (by norm_num), hrecip,
      pyInt, if_pos (by norm_num), hfloor]
    decide
  refine ⟨hcode, by rw [hround]; decide, ?_⟩
  rw [hcode, hround]
  decide

/-- C8 (amended). For positive exposure times below one second the
formatter returns `"1/{truncated (floored) reciprocal of t}"`, and for
`t ≥ 1` it returns `"{t}s"`; in particular `0.001 ↦ "1/1000"` and
`2.0 ↦ "2.0s"`. -/
theorem C8_amended :
    (∀ t : ℚ, 0 < t → t < 1 → format_shutter_speed t = "1/" ++ toString ⌊1 / t⌋) ∧
    (∀ t : ℚ, 1 ≤ t → format_shutter_speed t = pyFloatRepr t ++ "s") ∧
    format_shutter_speed (1/1000) = "1/1000" ∧
    format_shutter_speed 2 = "2.0s" := by
  refine ⟨?_, ?_, ?_, ?_⟩
  · intro t ht h1
    have hne : t ≠ 0 := ne_of_gt ht
    simp [format_shutter_speed, hne, h1, pyInt, ht.le]
  · intro t h1
    have hne : t ≠ 0 := ne_of_gt (lt_of_lt_of_le one_pos h1)
    have hnl : ¬ t < 1 := not_lt.mpr h1
    simp [format_shutter_speed, hne, hnl]
  · have hrecip : (1 : ℚ) / (1/1000) = 1000 := by norm_num
    have hfloor : ⌊(1000 : ℚ)⌋ = 1000 := by rw [Int.floor_eq_iff]; norm_num
    rw [format_shutter_speed, if_neg (by norm_num), if_pos (by norm_num), hrecip,
      pyInt, if_pos (by norm_num), hfloor]
    decide
  · rw [format_shutter_speed, if_neg (by norm_num), if_neg (by norm_num), pyFloatRepr,
      if_pos (by norm_num [Rat.den_ofNat]), Rat.num_ofNat]
    decide

/-- C8 witness: the amended theorem applied at `t = 1/2` and `t = 5/2`. -/
theorem C8_amended_witness :
    format_shutter_speed (1/2) = "1/" ++ toString ⌊(1 : ℚ) / (1/2)⌋ ∧
    format_shutter_speed (5/2) = pyFloatRepr (5/2) ++ "s" :=
  ⟨C8_amended.1 (1/2) (by norm_num) (by norm_num), C8_amended.2.1 (5/2) (by norm_num)⟩

/-! ### C3: change detection -/

/-- A concrete filesystem for the change-detection claims: the source and
target both exist with equal mtimes, and the index is empty. -/
def fsC3 : Fs := fun p =>
  if p = "/src/a.tif" then some ⟨10, 5⟩
  else if p = "/lib/600/a.jpg" then some ⟨10, 7⟩
  else none

/-- C3 (counterexample). The claim says a file is reprocessed whenever the
index has no entry for (source, target). Here the target exists, the index
is empty, and the source is not newer than the target: `needs_update`
returns `false` (skip), although the claim requires reprocessing. -/
theorem C3_counterexample :
    needs_update fsC3 "/src/a.tif" "/lib/600/a.jpg" [] = false ∧
    fsC3 "/lib/600/a.jpg" ≠ none ∧
    indexLookup [] ("/src/a.tif" ++ "|" ++ "/lib/600/a.jpg") = none := by
  refine ⟨by decide, by decide, by decide⟩

theorem lookup_map_overwrite (idx : IndexMap) (key sig : String)
    (h : (List.find? (fun p => p.1 == key) idx).isSome) :
    (List.find? (fun p => p.1 == key)
      (List.map (fun p => if p.1 == key then (key, sig) else p) idx)).map Prod.snd =
      some sig := by
  induction idx with
  | nil => simp at h
  | cons hd tl ih =>
    by_cases hk : hd.1 = key
    · simp [List.find?, hk]
    · have hne : (hd.1 == key) = false := by simp [hk]
      have h' : (List.find? (fun p => p.1 == key) tl).isSome := by
        rwa [List.find?_cons_of_neg _ (by simp [hk])] at h
      rw [List.map_cons]
      rw [show (if (hd.1 == key) = true then (key, sig) else hd) = hd from by simp [hne]]
      rw [List.find?_cons_of_neg _ (by simp [hk])]
      exact ih h'

theorem indexLookup_save (idx : IndexMap) (s t sig : String) :
    indexLookup (save_index_entry idx s t sig) (s ++ "|" ++ t) = some sig := by
  unfold save_index_entry indexLookup
  by_cases h : (List.find? (fun p => p.1 == s ++ "|" ++ t) idx).isSome
  · rw [if_pos h]
    exact lookup_map_overwrite idx _ sig h
  · rw [if_neg h, List.find?_append, Option.not_isSome_iff_eq_none.mp h]
    simp [List.find?]

/-- C3 (amended). With source and target both on disk, `needs_update`
returns `false` (skip) iff the index entry for (source, target) matches the
source's current signature **or** the source's mtime is not greater than
the target's; a missing target always forces processing; and
`save_index_entry` (called after each successful transcode) records the new
signature under the pair's key. -/
theorem C3_amended :
    (∀ (fs : Fs) (s t : String) (idx : IndexMap) (si ti : FileInfo),
      fs s = some si → fs t = some ti →
      (needs_update fs s t idx = false ↔
        (indexLookup idx (s ++ "|" ++ t) = some (get_file_signature fs s) ∨
          si.mtime ≤ ti.mtime))) ∧
    (∀ (fs : Fs) (s t : String) (idx : IndexMap),
      fs t = none → needs_update fs s t idx = true) ∧
    (∀ (idx : IndexMap) (s t sig : String),
      indexLookup (save_index_entry idx s t sig) (s ++ "|" ++ t) = some sig) := by
  refine ⟨?_, ?_, indexLookup_save⟩
  · intro fs s t idx si ti hs ht
    simp only [needs_update]
    rw [if_neg (by simp [ht])]
    by_cases hidx : indexLookup idx (s ++ "|" ++ t) = some (get_file_signature fs s)
    · simp [hidx]
    · rw [if_neg hidx]
      simp only [getmtime, hs, ht, hidx, false_or]
      split
      · simp only [Bool.true_eq_false, false_iff]
        omega
      · simp only [true_iff]
        omega
  · intro fs s t idx ht
    simp only [needs_update]
    rw [if_pos ht]

/-- C3 witness: the amended theorem applied to `fsC3` — the skip decision
holds because the source is not newer, not because of an index entry. -/
theorem C3_amended_witness :
    (needs_update fsC3 "/src/a.tif" "/lib/600/a.jpg" [] = false ↔
      (indexLookup [] ("/src/a.tif" ++ "|" ++ "/lib/600/a.jpg") =
        some (get_file_signature fsC3 "/src/a.tif") ∨
        (10 : ℕ) ≤ 10)) ∧
    needs_update fsC3 "/src/a.tif" "/missing.jpg" [] = true := by
  refine ⟨C3_amended.1 fsC3 _ _ [] ⟨10, 5⟩ ⟨10, 7⟩ (by decide) (by decide),
    C3_amended.2.1 fsC3 "/src/a.tif" "/missing.jpg" [] (by decide)⟩

/-! ### C6: index persistence -/

/-- C6 (counterexample). `write_index` is a single direct write to the
index path — it has no temp-file-then-rename shape, so the claimed atomic
rewrite does not hold even for the empty index. -/
theorem C6_counterexample : ¬ IsAtomicRewrite (write_index []) INDEX_FILE := by
  rintro ⟨tmp, c, -, hops⟩
  simp [write_index] at hops

/-- C6 (amended). After a full run the index is rewritten by opening the
index file directly and writing every entry — one in-place write, no
temporary file and no rename — so a crash during the rewrite can leave a
truncated index. -/
theorem C6_amended :
    ∀ idx : IndexMap,
      write_index idx = [FsOp.write INDEX_FILE (String.join (idx.map formatIndexLine))] ∧
      (∀ op ∈ write_index idx, ∃ c, op = FsOp.write INDEX_FILE c) ∧
      (∀ s d, FsOp.rename s d ∉ write_index idx) := by
  intro idx
  refine ⟨rfl, ?_, ?_⟩
  · intro op hop
    simp only [write_index, List.mem_singleton] at hop
    exact ⟨_, hop⟩
  · intro s d hmem
    simp [write_index] at hmem

/-- C6 witness: the amended theorem applied to a one-entry index. -/
theorem C6_amended_witness :
    write_index [("a|b", "1:2")] =
      [FsOp.write INDEX_FILE (String.join [formatIndexLine ("a|b", "1:2")])] ∧
    FsOp.rename "x" "y" ∉ write_index [("a|b", "1:2")] :=
  ⟨(C6_amended [("a|b", "1:2")]).1, (C6_amended [("a|b", "1:2")]).2.2 "x" "y"⟩

/-! ### C7: auth guard -/

/-- C7. A request with no `Authorization` header (or one without the
`Bearer ` scheme), an unknown token, or a token whose expiry has passed
gets status 401 and the wrapped handler never runs; in the expired case the
token is removed from the map on this first use (lazy eviction). -/
theorem C7_auth_guard :
    (∀ (tokens : List (String × TokenData)) (now : ℕ),
      require_auth none tokens now = (some 401, tokens, false)) ∧
    (∀ (h : String) (tokens : List (String × TokenData)) (now : ℕ),
      pyStartswith h "Bearer " = false →
      require_auth (some h) tokens now = (some 401, tokens, false)) ∧
    (∀ (h : String) (tokens : List (String × TokenData)) (now : ℕ),
      List.find? (fun p => p.1 == (pySplit h " ").getD 1 "") tokens = none →
      require_auth (some h) tokens now = (some 401, tokens, false)) ∧
    (∀ (h : String) (tokens : List (String × TokenData)) (now : ℕ)
      (tok : String) (d : TokenData),
      pyStartswith h "Bearer " = true →
      List.find? (fun p => p.1 == (pySplit h " ").getD 1 "") tokens = some (tok, d) →
      d.expires < now →
      (require_auth (some h) tokens now).1 = some 401 ∧
      (require_auth (some h) tokens now).2.2 = false ∧
      (∀ p ∈ (require_auth (some h) tokens now).2.1,
        ¬ p.1 = (pySplit h " ").getD 1 "")) := by
  refine ⟨fun tokens now => rfl, ?_, ?_, ?_⟩
  · intro h tokens now hpre
    simp [require_auth, hpre]
  · intro h tokens now hfind
    simp only [require_auth]
    split
    · rw [hfind]
    · rfl
  · intro h tokens now tok d hpre hfind hexp
    simp only [require_auth, hpre, if_true, hfind, hexp]
    refine ⟨by trivial, by trivial, ?_⟩
    intro p hp
    exact of_decide_eq_true (List.mem_filter.mp hp).2

/-- C7 witness: the guard applied to an expired token — 401, handler not
run, token evicted. -/
theorem C7_auth_guard_witness :
    (require_auth (some "Bearer abc") [("abc", ⟨"admin", 5⟩)] 10).1 = some 401 ∧
    (require_auth (some "Bearer abc") [("abc", ⟨"admin", 5⟩)] 10).2.2 = false ∧
    ("abc", (⟨"admin", 5⟩ : TokenData)) ∉
      (require_auth (some "Bearer abc") [("abc", ⟨"admin", 5⟩)] 10).2.1 := by
  have h := C7_auth_guard.2.2.2 "Bearer abc" [("abc", ⟨"admin", 5⟩)] 10 "abc"
    ⟨"admin", 5⟩ (by decide) (by decide) (by decide)
  exact ⟨h.1, h.2.1, fun hm => (h.2.2 _ hm) (by decide)⟩

/-! ### C9: non-string tag payloads -/

theorem cleanTags_error_of_other {l : List PyVal} (h : PyVal.other ∈ l) :
    cleanTags l = .error () := by
  induction l with
  | nil => cases h
  | cons hd tl ih =>
    cases hd with
    | other => rfl
    | str s =>
      rcases List.mem_cons.mp h with h' | h'
      · cases h'
      · simp [cleanTags, ih h']

/-- C9. A tags payload that is a list containing a non-string element makes
the cleaning comprehension raise before the `with conn:` transaction is
entered: the endpoint answers 500 (not 400) and the database — in
particular the image's tag links — is unchanged. -/
theorem C9_nonstring_tags (db : Db) (image_id : String) (l : List PyVal)
    (h : PyVal.other ∈ l) :
    update_tags db image_id (.list l) = (500, db, false) := by
  simp [update_tags, cleanTags_error_of_other h]

/-- C9 witness: a one-element non-string list on a database with one tagged
image. -/
theorem C9_nonstring_tags_witness :
    update_tags ⟨[blankRow 1 "a"], [⟨1, "t"⟩], [(1, 1)], 2, 2⟩ "a"
        (.list [PyVal.other, PyVal.str "ok"]) =
      (500, ⟨[blankRow 1 "a"], [⟨1, "t"⟩], [(1, 1)], 2, 2⟩, false) :=
  C9_nonstring_tags _ _ _ (by simp)

/-! ### C10: empty / missing description -/

theorem pyStrip_eq_empty_of_all_ws {s : String} (h : s.data.all isPyWhitespace) :
    pyStrip s = "" := by
  unfold pyStrip
  have h1 : s.data.dropWhile isPyWhitespace = [] := by
    rw [List.dropWhile_eq_nil_iff]
    exact fun x hx => List.all_eq_true.mp h x hx
  rw [h1]
  rfl

/-- C10. An authenticated `PUT` to the description endpoint of an existing
image whose body lacks the `description` key, or whose value is only
whitespace, succeeds (200 — never rejected for a missing field) and stores
the empty string, clearing any previously stored description. -/
theorem C10_description_cleared (db : Db) (iid : String) (descField : Option String)
    (row : ImageRow) (hrow : findImageByImageId db iid = some row)
    (hdesc : descField = none ∨ ∃ s, descField = some s ∧ s.data.all isPyWhitespace) :
    (update_description db iid descField).1 = 200 ∧
    ∀ r ∈ (update_description db iid descField).2.images,
      r.image_id = iid → r.description = "" := by
  have hstrip : pyStrip (descField.getD "") = "" := by
    rcases hdesc with h | ⟨s, hs, hws⟩
    · subst h; rfl
    · subst hs; exact pyStrip_eq_empty_of_all_ws hws
  simp only [update_description, hrow, hstrip]
  refine ⟨by trivial, ?_⟩
  intro r hr hrid
  simp only [List.mem_map] at hr
  obtain ⟨r₀, hr₀, hmap⟩ := hr
  by_cases hc : r₀.image_id = iid
  · rw [if_pos hc] at hmap
    rw [← hmap]
  · rw [if_neg hc] at hmap
    exact absurd (hmap ▸ hrid) hc

/-- C10 witness: a whitespace-only body on an image whose stored
description was `"old words"` — the handler answers 200 and the stored
description afterwards is the empty string. -/
theorem C10_description_cleared_witness :
    (update_description ⟨[{ blankRow 1 "a" with description := "old words" }], [], [], 2, 1⟩
      "a" (some " \t ")).1 = 200 ∧
    (update_description ⟨[{ blankRow 1 "a" with description := "old words" }], [], [], 2, 1⟩
      "a" (some " \t ")).2.images.map ImageRow.description = [""] := by
  have h := C10_description_cleared
    ⟨[{ blankRow 1 "a" with description := "old words" }], [], [], 2, 1⟩ "a" (some " \t ")
    { blankRow 1 "a" with description := "old words" } (by decide)
    (Or.inr ⟨" \t ", rfl, by decide⟩)
  exact ⟨h.1, by decide⟩

/-! ### C5: reconciliation frame conditions -/

/-- C5. When a record already exists, the reconciliation update of
`process_all` touches only the path and EXIF columns, and the EXIF-only
update of `update_exif_only` touches only the EXIF columns: for every row
of `images` the identity, description and classification columns are
preserved, and the `tags` / `image_tags` tables are untouched. -/
theorem C5_update_frame :
    (∀ (db : Db) (img : ScannedImage) (row : ImageRow),
      findImageByImageId db img.image_id = some row →
      (process_all_upsert db img).image_tags = db.image_tags ∧
      (process_all_upsert db img).tags = db.tags ∧
      ∀ r ∈ db.images, ∃ r' ∈ (process_all_upsert db img).images,
        r'.id = r.id ∧ r'.image_id = r.image_id ∧ r'.film_type = r.film_type ∧
        r'.batch_info = r.batch_info ∧ r'.filename_base = r.filename_base ∧
        r'.film_stock = r.film_stock ∧ r'.description = r.description ∧
        r'.needs_reload = r.needs_reload) ∧
    (∀ (db : Db) (iid : String) (e : ExifUpdate) (row : ImageRow),
      findImageByImageId db iid = some row →
      (update_exif_data_step db iid e).image_tags = db.image_tags ∧
      (update_exif_data_step db iid e).tags = db.tags ∧
      ∀ r ∈ db.images, ∃ r' ∈ (update_exif_data_step db iid e).images,
        r'.id = r.id ∧ r'.image_id = r.image_id ∧ r'.film_type = r.film_type ∧
        r'.batch_info = r.batch_info ∧ r'.filename_base = r.filename_base ∧
        r'.film_stock = r.film_stock ∧ r'.description = r.description ∧
        r'.thumbnail_path = r.thumbnail_path ∧ r'.highres_path = r.highres_path ∧
        r'.needs_reload = r.needs_reload) := by
  constructor
  · intro db img row h
    simp only [process_all_upsert, h]
    refine ⟨by trivial, by trivial, ?_⟩
    intro r hr
    refine ⟨_, List.mem_map_of_mem _ hr, ?_⟩
    by_cases hc : r.image_id = img.image_id <;>
      simp [hc, process_all_update_row]
  · intro db iid e row h
    simp only [update_exif_data_step, h]
    refine ⟨by trivial, by trivial, ?_⟩
    intro r hr
    refine ⟨_, List.mem_map_of_mem _ hr, ?_⟩
    by_cases hc : r.image_id = iid <;>
      simp [hc, update_exif_row]

/-- A database with one record carrying a description and a tag link, for
the C5 witness. -/
def dbC5 : Db :=
  ⟨[{ blankRow 1 "rollfilm/b1/img1" with description := "keep me" }],
    [⟨1, "favourite"⟩], [(1, 1)], 2, 2⟩

/-- The scan result for the record of `dbC5`, carrying fresh EXIF. -/
def imgC5 : ScannedImage :=
  { image_id := "rollfilm/b1/img1"
    film_type := "rollfilm"
    batch_info := "b1"
    filename_base := "img1"
    film_stock := "Unknown"
    thumbnail_path := "/mnt/omv/Photo/Picture_library/rollfilm/b1/img1/600/img1.jpg"
    highres_path := "/mnt/omv/Photo/Picture_library/rollfilm/b1/img1/2560/img1.jpg"
    description := ""
    exif := ⟨"Nikon", "FM2", "", "50mm", "f/2.8", "1/250", "400", none, none⟩ }

/-- C5 witness: the theorem applied to `dbC5` — after the run the tag link
survives and the stored description is still `"keep me"`. -/
theorem C5_update_frame_witness :
    (process_all_upsert dbC5 imgC5).image_tags = [(1, 1)] ∧
    (process_all_upsert dbC5 imgC5).images.map ImageRow.description = ["keep me"] := by
  have h := C5_update_frame.1 dbC5 imgC5
    { blankRow 1 "rollfilm/b1/img1" with description := "keep me" } (by decide)
  exact ⟨h.1, by decide⟩

/-! ### C2: sanitization dedup -/

/-- A database holding a `#`-named record (with one tag link) next to its
already-sanitized duplicate. -/
def dbC2 : Db :=
  ⟨[blankRow 1 "rollfilm/b1/photo#1", blankRow 2 "rollfilm/b1/photon1"],
    [⟨1, "tagx"⟩], [(1, 1)], 3, 2⟩

/-- C2 (counterexample). Running the `#`-sanitization pass of
`cleanup_hash_migration` on the record `rollfilm/b1/photo#1`, whose
sanitized id collides with the existing `rollfilm/b1/photon1`, deletes the
old images row but leaves its tag link `(1, 1)` in `image_tags` — the
claim says the old record's tag links are deleted too. -/
theorem C2_counterexample :
    (update_database_paths_step dbC2 1 "rollfilm/b1/photo#1" none none).images =
      [blankRow 2 "rollfilm/b1/photon1"] ∧
    (update_database_paths_step dbC2 1 "rollfilm/b1/photo#1" none none).image_tags =
      [(1, 1)] := by
  refine ⟨by decide, by decide⟩

/-- C2 (amended). On a collision, `fix_spaced_filenames` (space
sanitization) deletes the old record **and** its tag links, keeping the
canonical sanitized record, while `cleanup_hash_migration` (`#`
sanitization) deletes only the old images row and leaves its `image_tags`
rows behind; with no collision both passes update the record in place to
the sanitized image_id and paths, leaving the tag links untouched. -/
theorem C2_amended :
    (∀ (db : Db) (pk : ℕ) (iid : String) (thumb highres : Option String)
      (dup : ImageRow),
      findImageByImageId db (pyReplaceChar iid ' ' '_') = some dup → ¬ dup.id = pk →
      (∀ r ∈ (fix_spaced_step db pk iid thumb highres).images, ¬ r.id = pk) ∧
      dup ∈ (fix_spaced_step db pk iid thumb highres).images ∧
      (∀ p ∈ (fix_spaced_step db pk iid thumb highres).image_tags, ¬ p.1 = pk)) ∧
    (∀ (db : Db) (pk : ℕ) (iid : String) (thumb highres : Option String),
      findImageByImageId db (pyReplaceChar iid ' ' '_') = none →
      (fix_spaced_step db pk iid thumb highres).image_tags = db.image_tags ∧
      (∀ r ∈ db.images, ¬ r.id = pk →
        r ∈ (fix_spaced_step db pk iid thumb highres).images) ∧
      (∀ r ∈ db.images, r.id = pk →
        { r with
          image_id := pyReplaceChar iid ' ' '_'
          thumbnail_path := pyOptReplace thumb ' ' '_'
          highres_path := pyOptReplace highres ' ' '_' } ∈
          (fix_spaced_step db pk iid thumb highres).images)) ∧
    (∀ (db : Db) (pk : ℕ) (iid : String) (thumb highres : Option String)
      (dup : ImageRow),
      findImageByImageId db (pyReplaceChar iid '#' 'n') = some dup → ¬ dup.id = pk →
      (∀ r ∈ (update_database_paths_step db pk iid thumb highres).images, ¬ r.id = pk) ∧
      dup ∈ (update_database_paths_step db pk iid thumb highres).images ∧
      (update_database_paths_step db pk iid thumb highres).image_tags = db.image_tags) ∧
    (∀ (db : Db) (pk : ℕ) (iid : String) (thumb highres : Option String),
      findImageByImageId db (pyReplaceChar iid '#' 'n') = none →
      (update_database_paths_step db pk iid thumb highres).image_tags = db.image_tags ∧
      (∀ r ∈ db.images, ¬ r.id = pk →
        r ∈ (update_database_paths_step db pk iid thumb highres).images) ∧
      (∀ r ∈ db.images, r.id = pk →
        { r with
          image_id := pyReplaceChar iid '#' 'n'
          thumbnail_path := pyOptReplace thumb '#' 'n'
          highres_path := pyOptReplace highres '#' 'n' } ∈
          (update_database_paths_step db pk iid thumb highres).images)) := by
  refine ⟨?_, ?_, ?_, ?_⟩
  · intro db pk iid thumb highres dup hdup hne
    simp only [fix_spaced_step, hdup]
    refine ⟨?_, ?_, ?_⟩
    · intro r hr
      exact of_decide_eq_true (List.mem_filter.mp hr).2
    · exact List.mem_filter.mpr ⟨List.mem_of_find?_eq_some hdup, by simp [hne]⟩
    · intro p hp
      exact of_decide_eq_true (List.mem_filter.mp hp).2
  · intro db pk iid thumb highres hnone
    simp only [fix_spaced_step, hnone]
    refine ⟨by trivial, ?_, ?_⟩
    · intro r hr hrpk
      have hmem := List.mem_map_of_mem
        (fun r : ImageRow =>
          if r.id = pk then
            { r with
              image_id := pyReplaceChar iid ' ' '_'
              thumbnail_path := pyOptReplace thumb ' ' '_'
              highres_path := pyOptReplace highres ' ' '_' }
          else r) hr
      simpa [hrpk] using hmem
    · intro r hr hrpk
      have hmem := List.mem_map_of_mem
        (fun r : ImageRow =>
          if r.id = pk then
            { r with
              image_id := pyReplaceChar iid ' ' '_'
              thumbnail_path := pyOptReplace thumb ' ' '_'
              highres_path := pyOptReplace highres ' ' '_' }
          else r) hr
      simpa [hrpk] using hmem
  · intro db pk iid thumb highres dup hdup hne
    simp only [update_database_paths_step, hdup]
    refine ⟨?_, ?_, by trivial⟩
    · intro r hr
      exact of_decide_eq_true (List.mem_filter.mp hr).2
    · exact List.mem_filter.mpr ⟨List.mem_of_find?_eq_some hdup, by simp [hne]⟩
  · intro db pk iid thumb highres hnone
    simp only [update_database_paths_step, hnone]
    refine ⟨by trivial, ?_, ?_⟩
    · intro r hr hrpk
      have hmem := List.mem_map_of_mem
        (fun r : ImageRow =>
          if r.id = pk then
            { r with
              image_id := pyReplaceChar iid '#' 'n'
              thumbnail_path := pyOptReplace thumb '#' 'n'
              highres_path := pyOptReplace highres '#' 'n' }
          else r) hr
      simpa [hrpk] using hmem
    · intro r hr hrpk
      have hmem := List.mem_map_of_mem
        (fun r : ImageRow =>
          if r.id = pk then
            { r with
              image_id := pyReplaceChar iid '#' 'n'
              thumbnail_path := pyOptReplace thumb '#' 'n'
              highres_path := pyOptReplace highres '#' 'n' }
          else r) hr
      simpa [hrpk] using hmem

/-- The spec's dedup example (§8): `rollfilm/b1/my file` (with a tag link)
next to its sanitized form `rollfilm/b1/my_file`. -/
def dbC2fix : Db :=
  ⟨[blankRow 1 "rollfilm/b1/my file", blankRow 2 "rollfilm/b1/my_file"],
    [⟨1, "t"⟩], [(1, 1)], 3, 2⟩

/-- C2 witness: the amended theorem applied to the spec's example — the
space-sanitization pass keeps the canonical record and removes the spaced
record's tag link. -/
theorem C2_amended_witness :
    blankRow 2 "rollfilm/b1/my_file" ∈
      (fix_spaced_step dbC2fix 1 "rollfilm/b1/my file" none none).images ∧
    (1, 1) ∉ (fix_spaced_step dbC2fix 1 "rollfilm/b1/my file" none none).image_tags := by
  have h := C2_amended.1 dbC2fix 1 "rollfilm/b1/my file" none none
    (blankRow 2 "rollfilm/b1/my_file") (by decide) (by decide)
  exact ⟨h.2.1, fun hm => (h.2.2 _ hm) rfl⟩

/-! ### C4: tag replacement -/

theorem find?_id_of_mem {tags : List TagRow} (hnd : (tags.map TagRow.id).Nodup)
    {t : TagRow} (ht : t ∈ tags) :
    List.find? (fun u => u.id == t.id) tags = some t := by
  induction tags with
  | nil => cases ht
  | cons hd tl ih =>
    have hnd' : hd.id ∉ tl.map TagRow.id ∧ (tl.map TagRow.id).Nodup := by
      rw [List.map_cons, List.nodup_cons] at hnd
      exact hnd
    rcases List.mem_cons.mp ht with h | h
    · subst h
      rw [List.find?_cons_of_pos _ (by simp)]
    · have hne : ¬ hd.id = t.id := by
        intro he
        exact hnd'.1 (he ▸ List.mem_map_of_mem TagRow.id h)
      rw [List.find?_cons_of_neg _ (by simp [hne])]
      exact ih hnd'.2 h

/-- What one tag upsert does: well-formedness is preserved, the other
tables are untouched, the returned id resolves to the upserted name, and
resolution of every previously valid id is unchanged. -/
theorem upsertTag_spec (db : Db) (name : String) (wf : db.WFtags) :
    (upsertTag db name).1.WFtags ∧
    (upsertTag db name).1.images = db.images ∧
    (upsertTag db name).1.image_tags = db.image_tags ∧
    (upsertTag db name).2 < (upsertTag db name).1.nextTagId ∧
    (List.find? (fun t => t.id == (upsertTag db name).2)
      (upsertTag db name).1.tags).map TagRow.name = some name ∧
    (∀ i : ℕ, i < db.nextTagId →
      List.find? (fun t => t.id == i) (upsertTag db name).1.tags =
        List.find? (fun t => t.id == i) db.tags) := by
  obtain ⟨hnd, hbound, hlinks⟩ := wf
  cases hfind : List.find? (fun t => t.name == name) db.tags with
  | some t =>
    have htmem := List.mem_of_find?_eq_some hfind
    have htname : t.name = name := by simpa using List.find?_some hfind
    simp only [upsertTag, hfind]
    refine ⟨⟨hnd, hbound, hlinks⟩, by trivial, by trivial, hbound t htmem, ?_,
      fun _ _ => trivial⟩
    rw [find?_id_of_mem hnd htmem]
    simp [htname]
  | none =>
    simp only [upsertTag, hfind]
    have hold : List.find? (fun t => t.id == db.nextTagId) db.tags = none := by
      rw [List.find?_eq_none]
      intro t ht hbeq
      exact absurd (by simpa using hbeq) (Nat.ne_of_lt (hbound t ht))
    refine ⟨⟨?_, ?_, ?_⟩, by trivial, by trivial, Nat.lt_succ_self _, ?_, ?_⟩
    · rw [List.map_append, List.nodup_append]
      refine ⟨hnd, by simp, ?_⟩
      intro x hx
      obtain ⟨t, ht, hxt⟩ := List.mem_map.mp hx
      simp only [List.map_cons, List.map_nil, List.mem_singleton]
      exact hxt ▸ Nat.ne_of_lt (hbound t ht)
    · intro t ht
      rcases List.mem_append.mp ht with h | h
      · exact Nat.lt_trans (hbound t h) (Nat.lt_succ_self _)
      · rw [List.mem_singleton.mp h]
        exact Nat.lt_succ_self _
    · intro p hp
      exact Nat.lt_trans (hlinks p hp) (Nat.lt_succ_self _)
    · rw [List.find?_append, hold]
      simp [List.find?]
    · intro i hi
      rw [List.find?_append]
      cases hfi : List.find? (fun t => t.id == i) db.tags with
      | some u => rfl
      | none =>
        have hne : (db.nextTagId == i) = false := by
          simp [Nat.ne_of_gt hi]
        simp [List.find?, hne]

/-- What the relink loop does: starting from any well-formed state, after
`linkTags db pk names` the names linked to `pk` are exactly those linked
before plus `names`, and the `images` table is untouched. -/
theorem linkTags_spec (names : List String) : ∀ (db : Db) (pk : ℕ), db.WFtags →
    (linkTags db pk names).WFtags ∧
    (linkTags db pk names).images = db.images ∧
    (∀ s, s ∈ linkedTagNames (linkTags db pk names) pk ↔
      s ∈ linkedTagNames db pk ∨ s ∈ names) := by
  induction names with
  | nil =>
    intro db pk wf
    exact ⟨wf, rfl, fun s => by simp [linkTags]⟩
  | cons n rest ih =>
    intro db pk wf
    obtain ⟨uwf, uimg, ulinks, ult, uname, ustable⟩ := upsertTag_spec db n wf
    have hLwf : Db.WFtags { (upsertTag db n).1 with
        image_tags := (upsertTag db n).1.image_tags ++ [(pk, (upsertTag db n).2)] } := by
      refine ⟨uwf.1, uwf.2.1, ?_⟩
      intro p hp
      rcases List.mem_append.mp hp with h | h
      · exact uwf.2.2 p h
      · rw [List.mem_singleton.mp h]
        exact ult
    have hrec := ih { (upsertTag db n).1 with
      image_tags := (upsertTag db n).1.image_tags ++ [(pk, (upsertTag db n).2)] } pk hLwf
    have hstep : linkTags db pk (n :: rest) =
        linkTags { (upsertTag db n).1 with
          image_tags := (upsertTag db n).1.image_tags ++ [(pk, (upsertTag db n).2)] }
          pk rest := rfl
    have hkey : ∀ s,
        s ∈ linkedTagNames { (upsertTag db n).1 with
          image_tags := (upsertTag db n).1.image_tags ++ [(pk, (upsertTag db n).2)] } pk ↔
        s ∈ linkedTagNames db pk ∨ s = n := by
      intro s
      unfold linkedTagNames
      simp only [List.filterMap_append]
      have hfirst :
          List.filterMap (fun p =>
            if p.1 = pk then
              (List.find? (fun t => t.id == p.2) (upsertTag db n).1.tags).map TagRow.name
            else none) (upsertTag db n).1.image_tags =
          List.filterMap (fun p =>
            if p.1 = pk then
              (List.find? (fun t => t.id == p.2) db.tags).map TagRow.name
            else none) db.image_tags := by
        rw [ulinks]
        apply List.filterMap_congr
        intro p hp
        by_cases hppk : p.1 = pk
        · rw [if_pos hppk, if_pos hppk, ustable p.2 (wf.2.2 p hp)]
        · rw [if_neg hppk, if_neg hppk]
      have hsecond :
          List.filterMap (fun p =>
            if p.1 = pk then
              (List.find? (fun t => t.id == p.2) (upsertTag db n).1.tags).map TagRow.name
            else none) [(pk, (upsertTag db n).2)] = [n] := by
        simp only [List.filterMap, if_pos rfl]
        rw [show ((pk, (upsertTag db n).2) : ℕ × ℕ).2 = (upsertTag db n).2 from rfl] at *
        simp [uname]
      rw [hfirst, hsecond]
      simp [linkedTagNames]
    refine ⟨hrec.1, hrec.2.1.trans uimg, fun s => ?_⟩
    rw [hstep, hrec.2.2 s, hkey s]
    simp only [List.mem_cons]
    tauto

/-- C4. For an authenticated tags update on an existing image with an
all-string tags list, the handler answers 200 and afterwards the set of
tag names linked to the image is exactly the set of distinct lowercased,
trimmed, non-empty submitted names: all prior links are deleted, each
cleaned name is upserted into `tags` and re-linked. The delete, upserts and
re-links form the single request state transition (one `with conn:`
transaction), so no partial tag list is committed. -/
theorem C4_tags_replacement (db : Db) (iid : String) (l : List PyVal)
    (cleaned : List String) (row : ImageRow)
    (wf : db.WFtags) (hclean : cleanTags l = .ok cleaned)
    (hrow : findImageByImageId db iid = some row) :
    (update_tags db iid (.list l)).1 = 200 ∧
    (∀ s, s ∈ linkedTagNames (update_tags db iid (.list l)).2.1 row.id ↔
      s ∈ cleaned) := by
  simp only [update_tags, hclean, hrow]
  refine ⟨by trivial, ?_⟩
  intro s
  have wf1 : Db.WFtags { db with
      image_tags := db.image_tags.filter (fun p => ¬ p.1 = row.id) } := by
    refine ⟨wf.1, wf.2.1, ?_⟩
    intro p hp
    exact wf.2.2 p (List.mem_of_mem_filter hp)
  rw [(linkTags_spec cleaned.dedup _ row.id wf1).2.2 s]
  have h0 : linkedTagNames { db with
      image_tags := db.image_tags.filter (fun p => ¬ p.1 = row.id) } row.id = [] := by
    unfold linkedTagNames
    rw [List.filterMap_eq_nil_iff]
    intro p hp
    exact if_neg (of_decide_eq_true (List.mem_filter.mp hp).2)
  rw [h0]
  simp [List.mem_dedup]

/-- A database with one image (pk 7) currently linked to the tag `"old"`,
for the C4 witness. -/
def dbC4 : Db :=
  ⟨[blankRow 7 "rollfilm/b/x"], [⟨1, "old"⟩], [(7, 1)], 8, 2⟩

/-- C4 witness: replacing the tag set of `rollfilm/b/x` with
`["  Sunset ", "beach", "sunset", "  "]` — afterwards exactly
`{"sunset", "beach"}` are linked and the previous tag `"old"` is not. -/
theorem C4_tags_replacement_witness :
    (update_tags dbC4 "rollfilm/b/x"
      (.list [.str "  Sunset ", .str "beach", .str "sunset", .str "  "])).1 = 200 ∧
    "sunset" ∈ linkedTagNames (update_tags dbC4 "rollfilm/b/x"
      (.list [.str "  Sunset ", .str "beach", .str "sunset", .str "  "])).2.1 7 ∧
    "beach" ∈ linkedTagNames (update_tags dbC4 "rollfilm/b/x"
      (.list [.str "  Sunset ", .str "beach", .str "sunset", .str "  "])).2.1 7 ∧
    "old" ∉ linkedTagNames (update_tags dbC4 "rollfilm/b/x"
      (.list [.str "  Sunset ", .str "beach", .str "sunset", .str "  "])).2.1 7 := by
  have h := C4_tags_replacement dbC4 "rollfilm/b/x"
    [.str "  Sunset ", .str "beach", .str "sunset", .str "  "]
    ["sunset", "beach", "sunset"] (blankRow 7 "rollfilm/b/x")
    (by decide) (by rfl) (by decide)
  refine ⟨h.1, (h.2 "sunset").mpr (by decide), (h.2 "beach").mpr (by decide), ?_⟩
  intro hm
  exact absurd ((h.2 "old").mp hm) (by decide)

end ImageGallery
